import Mathlib

/-!
Shallow embedding of the `rtm` repository: the driver script `rtm.py`
(waveform preprocessing parameters, the grid-search invocation, and the
peak-location step at lines 94-107) and the waveform-acquisition function
`gather_waveforms` of `utils.py`.  Stack values and coordinate values are
embedded as integers: the localization logic only compares and selects
them, so only their order matters.
-/

/-- The `S.attrs['UTM']` metadata recorded at grid-build time: zone number
and hemisphere flag (read at rtm.py lines 102-104).  `none` embeds a falsy
`UTM` attribute, i.e. a geographic (unprojected) volume. -/
structure UTMAttrs where
  zone : Nat
  southern_hemisphere : Bool
deriving DecidableEq, Repr

/-- An index into the 4-D stack volume: one position per named dimension
(x, y, time, celerity). -/
structure Idx4 where
  x : Nat
  y : Nat
  t : Nat
  c : Nat
deriving DecidableEq, Repr

/-- Modelled from the spec: the 4-D stack volume `S` returned by
`grid_search`, whose body lives in `grid_utils` and is not part of this
repository's files.  The spec describes it as "a 4-D array indexed by
(x-index, y-index, time-sample-index, celerity-index) holding a real-valued
stack statistic", with coordinate arrays for the four named axes and the
coordinate-system tag (`UTM` attribute) needed to de-project the maximum.
The consumer code at rtm.py lines 94-107 is embedded against this type. -/
structure StackVolume where
  nx : Nat
  ny : Nat
  nt : Nat
  nc : Nat
  data : Nat → Nat → Nat → Nat → Int
  xcoord : Nat → Int
  ycoord : Nat → Int
  tcoord : Nat → Int
  ccoord : Nat → Int
  utm : Option UTMAttrs

/-- The stack value stored at a 4-D index. -/
def StackVolume.val (v : StackVolume) (p : Idx4) : Int :=
  v.data p.x p.y p.t p.c

/-- All in-bounds 4-D indices of the volume, in row-major order. -/
def StackVolume.idxList (v : StackVolume) : List Idx4 :=
  (List.range v.nx).flatMap fun i =>
    (List.range v.ny).flatMap fun j =>
      (List.range v.nt).flatMap fun t =>
        (List.range v.nc).map fun c => ⟨i, j, t, c⟩

/-- Maximum of a list of stack values, `none` on the empty list.  This is
the embedding of `S.max()`: numpy's reduction over a zero-size array
raises rather than producing a value, hence the `none` case. -/
def listMax : List Int → Option Int
  | [] => none
  | a :: l =>
    match listMax l with
    | none => some a
    | some m => some (max a m)

/-- Failure modes of the peak-extraction chain at rtm.py line 94.
`valueError` embeds the error numpy raises from a zero-size `S.max()`
reduction; `indexError` embeds a positional index out of bounds.
`emptyVolumeError` is the distinguished error the spec names for an empty
volume; it is listed only so that statements can mention it — the embedded
code never produces it (no such error exists anywhere in the repository). -/
inductive PyError where
  | valueError
  | indexError
  | emptyVolumeError
deriving DecidableEq, Repr

/-- The labels along one axis that `S.where(S == S.max(), drop=True)`
retains: `drop=True` keeps a label exactly when its slice still holds a
non-NaN value, i.e. when the slice contains a point attaining `m`.
`n` is the axis length and `f` projects an index onto that axis. -/
def StackVolume.retained (v : StackVolume) (m : Int) (n : Nat) (f : Idx4 → Nat) : List Nat :=
  (List.range n).filter fun i => v.idxList.any fun p => (f p == i) && (v.val p == m)

/-- Embedding of rtm.py lines 94-99:
`max_coords = S.where(S == S.max(), drop=True)[0, 0, 0, 0].coords`
followed by reading the x, y, time and celerity coordinates.  `S.max()` is
the global maximum (an error on an empty volume); `where(..., drop=True)`
keeps, along each dimension, exactly the labels whose slice contains a
maximizer; `[0, 0, 0, 0]` takes the first retained label of each dimension
independently.  The result is the position, on each of the four axes, that
the script reads its coordinates from. -/
def maxCoords (v : StackVolume) : Except PyError Idx4 :=
  match listMax (v.idxList.map v.val) with
  | none => .error .valueError
  | some m =>
    match (v.retained m v.nx (fun p => p.x)).head?, (v.retained m v.ny (fun p => p.y)).head?,
          (v.retained m v.nt (fun p => p.t)).head?, (v.retained m v.nc (fun p => p.c)).head? with
    | some i, some j, some t, some c => .ok ⟨i, j, t, c⟩
    | _, _, _, _ => .error .indexError

/-- Embedding of rtm.py lines 101-107.  `toLatlon` stands for the external
`utm.to_latlon(easting, northing, zone_number, northern)`, which returns a
pair ordered (latitude, longitude); the script passes
`northern = not southern_hemisphere`.  In the geographic branch the script
returns `(max_y, max_x)`, i.e. (latitude, longitude), unconverted. -/
def maxLoc (toLatlon : Int → Int → Nat → Bool → Int × Int)
    (utmAttr : Option UTMAttrs) (mx my : Int) : Int × Int :=
  match utmAttr with
  | some u => toLatlon mx my u.zone (!u.southern_hemisphere)
  | none => (my, mx)

/-- The source estimate the script assembles from the peak: the reported
location pair, the peak time coordinate and the peak celerity coordinate. -/
structure SourceEstimate where
  loc : Int × Int
  time : Int
  celerity : Int
deriving DecidableEq, Repr

/-- The whole peak-location step of rtm.py lines 94-107: extract the peak
position on each axis, read the corresponding coordinate values, and
de-project the location. -/
def sourceEstimate (toLatlon : Int → Int → Nat → Bool → Int × Int)
    (v : StackVolume) : Except PyError SourceEstimate :=
  match maxCoords v with
  | .error e => .error e
  | .ok p =>
    .ok ⟨maxLoc toLatlon v.utm (v.xcoord p.x) (v.ycoord p.y),
         v.tcoord p.t, v.ccoord p.c⟩

/-- rtm.py line 22: `AGC_WIN = 250`. -/
def AGC_WIN : Nat := 250

/-- rtm.py line 23: `AGC_METHOD = 'gismo'`. -/
def AGC_METHOD : String := "gismo"

/-- The AGC parameter set shape: `dict(win_sec=..., method=...)`. -/
structure AgcParams where
  win_sec : Nat
  method : String
deriving DecidableEq, Repr

/-- rtm.py line 50: `agc_params = dict(win_sec=AGC_WIN, method=AGC_METHOD)`. -/
def agc_params : AgcParams := ⟨AGC_WIN, AGC_METHOD⟩

/-- The keyword arguments of a `process_waveforms` call (utils-side
signature as invoked at rtm.py lines 52-55). -/
structure ProcessWaveformsCall where
  freqmin : Rat
  freqmax : Rat
  envelope : Bool
  smooth_win : Nat
  decimation_rate : Rat
  agc_params : Option AgcParams
  normalize : Bool
  plot_steps : Bool
deriving DecidableEq, Repr

/-- rtm.py lines 52-55: the `process_waveforms` call that produces the
stream fed to `grid_search`.  The source passes `agc_params=None`. -/
def process_waveforms_call : ProcessWaveformsCall :=
  ⟨1/2, 2, true, 120, 1/20, none, true, false⟩

/-- rtm.py line 73: `STACK_METHOD = 'sum'`. -/
def STACK_METHOD : String := "sum"

/-- rtm.py line 75: `CELERITY_LIST = [295, 300, 305]`. -/
def CELERITY_LIST : List Int := [295, 300, 305]

/-- The search-request arguments of a `grid_search` call. -/
structure GridSearchCall where
  celerity_list : List Int
  stack_method : String
deriving DecidableEq, Repr

/-- rtm.py lines 81-83: the `grid_search` invocation. -/
def grid_search_call : GridSearchCall := ⟨CELERITY_LIST, STACK_METHOD⟩

/-- A waveform request issued to a client's `get_waveforms`:
(network, station, location, channel, starttime, endtime). -/
structure Request where
  network : String
  station : String
  location : String
  channel : String
  starttime : Int
  endtime : Int
deriving DecidableEq, Repr

/-- One trace of an obspy Stream, carrying the header fields that
`Stream.sort`'s default keys order by. -/
structure Trace where
  network : String
  station : String
  location : String
  channel : String
  starttime : Int
  endtime : Int
deriving DecidableEq, Repr

/-- The default `Stream.sort` key tuple, compared lexicographically:
network, station, location, channel, starttime, endtime. -/
def traceKey (a : Trace) :
    Lex (String × Lex (String × Lex (String × Lex (String × Lex (Int × Int))))) :=
  toLex (a.network, toLex (a.station, toLex (a.location,
    toLex (a.channel, toLex (a.starttime, a.endtime)))))

/-- The trace order `Stream.sort()` sorts by with its default keys. -/
def traceLE (a b : Trace) : Prop := traceKey a ≤ traceKey b

instance : DecidableRel traceLE := fun a b =>
  inferInstanceAs (Decidable (traceKey a ≤ traceKey b))

instance : IsTotal Trace traceLE := ⟨fun a b => le_total (traceKey a) (traceKey b)⟩

instance : IsTrans Trace traceLE := ⟨fun _ _ _ h h2 => le_trans h h2⟩

/-- `st_out.sort()` with default keys (utils.py line 97). -/
def sortStream (st : List Trace) : List Trace := List.insertionSort traceLE st

/-- The sequence of `get_waveforms` requests the AVO Winston branch of
`gather_waveforms` issues (utils.py lines 62-89): five station names are
treated as arrays, AKS gets four channels at a blank location, the other
arrays get locations '01'..'06' at one channel (HDF for DLL and OKIF, BDF
otherwise), and any other station gets a single BDF request. -/
def avoRequests (network station : String) (t1 t2 : Int) : List Request :=
  if station ∈ (["ADKI", "AKS", "DLL", "OKIF", "SDPI"] : List String) then
    let channel := if station ∈ (["DLL", "OKIF"] : List String) then "HDF" else "BDF"
    if station = "AKS" then
      (["BDF", "BDG", "BDH", "BDI"] : List String).map fun ch =>
        ⟨network, station, "", ch, t1, t2⟩
    else
      (["01", "02", "03", "04", "05", "06"] : List String).map fun loc =>
        ⟨network, station, loc, channel, t1, t2⟩
  else
    [⟨network, station, "", "BDF", t1, t2⟩]

/-- Embedding of `gather_waveforms` (utils.py).  `watcOk` embeds whether
constructing the WATC FDSN client succeeds (the `try/except FDSNException`
at lines 44-51); `resp` embeds each client's `get_waveforms` response.
The result pairs the list of waveform requests issued with the returned
value: `some` a Stream (sorted before returning, line 97), or `none` for
the two bare-`return` paths (lines 51 and 95). -/
def gatherWaveforms (source network station : String) (t1 t2 : Int)
    (watcOk : Bool) (resp : Request → List Trace) :
    List Request × Option (List Trace) :=
  if source = "IRIS" then
    let reqs : List Request := [⟨network, station, "*", "BDF,HDF", t1, t2⟩]
    (reqs, some (sortStream (reqs.flatMap resp)))
  else if source = "WATC" then
    if watcOk then
      let reqs : List Request := [⟨network, station, "*", "BDF,HDF", t1, t2⟩]
      (reqs, some (sortStream (reqs.flatMap resp)))
    else
      ([], none)
  else if source = "AVO" then
    let reqs := avoRequests network station t1 t2
    (reqs, some (sortStream (reqs.flatMap resp)))
  else
    ([], none)

/-- `p` attains the global maximum of `v` (the spec's winning point): it is
in bounds and no in-bounds point holds a larger stack value. -/
def Maximizes (v : StackVolume) (p : Idx4) : Prop :=
  p ∈ v.idxList ∧ ∀ q ∈ v.idxList, v.val q ≤ v.val p

instance (v : StackVolume) (p : Idx4) : Decidable (Maximizes v p) :=
  inferInstanceAs (Decidable (p ∈ v.idxList ∧ ∀ q ∈ v.idxList, v.val q ≤ v.val p))

/-- What the peak step actually guarantees for the reported position `p`:
on each of the four axes, `p`'s component is the smallest index attained
by any global maximizer.  The four minima are taken independently, so the
4-tuple itself need not be a maximizer. -/
def AxisMinOfMaximizers (v : StackVolume) (p : Idx4) : Prop :=
  ((∃ q, Maximizes v q ∧ q.x = p.x) ∧ ∀ q, Maximizes v q → p.x ≤ q.x) ∧
  ((∃ q, Maximizes v q ∧ q.y = p.y) ∧ ∀ q, Maximizes v q → p.y ≤ q.y) ∧
  ((∃ q, Maximizes v q ∧ q.t = p.t) ∧ ∀ q, Maximizes v q → p.t ≤ q.t) ∧
  ((∃ q, Maximizes v q ∧ q.c = p.c) ∧ ∀ q, Maximizes v q → p.c ≤ q.c)

instance {e a : Type} [DecidableEq e] [DecidableEq a] : DecidableEq (Except e a) := fun x y =>
  match x, y with
  | .error u, .error w =>
    if h : u = w then isTrue (by rw [h]) else isFalse (fun hh => h (Except.error.inj hh))
  | .error _, .ok _ => isFalse (fun hh => Except.noConfusion hh)
  | .ok _, .error _ => isFalse (fun hh => Except.noConfusion hh)
  | .ok u, .ok w =>
    if h : u = w then isTrue (by rw [h]) else isFalse (fun hh => h (Except.ok.inj hh))

/-- An index is listed by `idxList` exactly when it is within the axis
lengths on all four axes. -/
theorem mem_idxList {v : StackVolume} {p : Idx4} :
    p ∈ v.idxList ↔ p.x < v.nx ∧ p.y < v.ny ∧ p.t < v.nt ∧ p.c < v.nc := by
  constructor
  · intro h
    simp only [StackVolume.idxList, List.mem_flatMap, List.mem_map, List.mem_range] at h
    obtain ⟨i, hi, j, hj, t, ht, c, hc, hp⟩ := h
    subst hp
    exact ⟨hi, hj, ht, hc⟩
  · intro h
    obtain ⟨h1, h2, h3, h4⟩ := h
    simp only [StackVolume.idxList, List.mem_flatMap, List.mem_map, List.mem_range]
    exact ⟨p.x, h1, p.y, h2, p.t, h3, p.c, h4, rfl⟩

/-- `listMax` returns `none` exactly on the empty list. -/
theorem listMax_eq_none {l : List Int} : listMax l = none ↔ l = [] := by
  cases l with
  | nil => simp [listMax]
  | cons a l =>
    constructor
    · intro h
      exfalso
      unfold listMax at h
      cases hl : listMax l <;> rw [hl] at h <;> cases h
    · intro h
      exact absurd h (List.cons_ne_nil a l)

/-- `listMax` returns a member of the list that bounds every member. -/
theorem listMax_spec {l : List Int} {m : Int} (h : listMax l = some m) :
    m ∈ l ∧ ∀ x ∈ l, x ≤ m := by
  induction l generalizing m with
  | nil => simp [listMax] at h
  | cons a l ih =>
    unfold listMax at h
    split at h
    next hl =>
      injection h with h
      subst h
      have hnil : l = [] := listMax_eq_none.mp hl
      subst hnil
      refine ⟨List.mem_cons_self a [], ?_⟩
      intro x hx
      rcases List.mem_cons.mp hx with h | h
      · exact le_of_eq h
      · exact absurd h (List.not_mem_nil x)
    next k hl =>
      injection h with h
      subst h
      obtain ⟨hk, hle⟩ := ih hl
      constructor
      · rcases max_choice a k with h | h
        · rw [h]; exact List.mem_cons_self a l
        · rw [h]; exact List.mem_cons_of_mem a hk
      · intro x hx
        rcases List.mem_cons.mp hx with h | h
        · rw [h]; exact le_max_left a k
        · exact le_trans (hle x h) (le_max_right a k)

/-- A volume with zero size along any axis has no indices at all. -/
theorem idxList_eq_nil {v : StackVolume}
    (h : v.nx = 0 ∨ v.ny = 0 ∨ v.nt = 0 ∨ v.nc = 0) : v.idxList = [] := by
  rw [List.eq_nil_iff_forall_not_mem]
  intro p hp
  obtain ⟨h1, h2, h3, h4⟩ := mem_idxList.mp hp
  rcases h with h | h | h | h <;> omega

/-- The head of `filter p (range n)` is the least index below `n`
satisfying `p`. -/
theorem head_filter_range {p : Nat → Bool} {n i : Nat}
    (h : ((List.range n).filter p).head? = some i) :
    p i = true ∧ i < n ∧ ∀ j, j < n → p j = true → i ≤ j := by
  induction n with
  | zero => simp [List.range_zero] at h
  | succ n ih =>
    rw [List.range_succ, List.filter_append, List.head?_append] at h
    cases hf : ((List.range n).filter p).head? with
    | some k =>
      rw [hf] at h
      rw [show (some k).or (List.filter p [n]).head? = some k from rfl] at h
      injection h with h
      subst h
      obtain ⟨hp, hlt, hmin⟩ := ih hf
      refine ⟨hp, Nat.lt_succ_of_lt hlt, ?_⟩
      intro j hj hpj
      rcases Nat.lt_succ_iff_lt_or_eq.mp hj with hj | hj
      · exact hmin j hj hpj
      · subst hj
        exact Nat.le_of_lt hlt
    | none =>
      rw [hf, Option.none_or] at h
      have hempty : (List.range n).filter p = [] := List.head?_eq_none_iff.mp hf
      by_cases hpn : p n = true
      · simp only [List.filter_singleton, hpn, cond_true, List.head?_cons] at h
        injection h with h
        subst h
        refine ⟨hpn, Nat.lt_succ_self n, ?_⟩
        intro j hj hpj
        rcases Nat.lt_succ_iff_lt_or_eq.mp hj with hj | hj
        · exfalso
          have hjmem : j ∈ (List.range n).filter p := by
            rw [List.mem_filter, List.mem_range]
            exact ⟨hj, hpj⟩
          rw [hempty] at hjmem
          exact List.not_mem_nil j hjmem
        · rw [hj]
      · rw [Bool.not_eq_true] at hpn
        simp only [List.filter_singleton, hpn, cond_false, List.head?_nil] at h
        cases h

/-- When `m` is the global maximum value, the maximizers are exactly the
in-bounds points whose stack value is `m`. -/
theorem maximizes_iff {v : StackVolume} {m : Int}
    (hm : listMax (v.idxList.map v.val) = some m) {q : Idx4} :
    Maximizes v q ↔ q ∈ v.idxList ∧ v.val q = m := by
  obtain ⟨hmem, hle⟩ := listMax_spec hm
  obtain ⟨q0, hq0, hq0v⟩ := List.mem_map.mp hmem
  constructor
  · intro hq
    obtain ⟨hqi, hmax⟩ := hq
    refine ⟨hqi, le_antisymm (hle _ (List.mem_map_of_mem _ hqi)) ?_⟩
    rw [← hq0v]
    exact hmax q0 hq0
  · intro hq
    obtain ⟨hqi, hv⟩ := hq
    refine ⟨hqi, ?_⟩
    intro r hr
    rw [hv]
    exact hle _ (List.mem_map_of_mem _ hr)

/-- The head of a `retained` axis-label list is in bounds, is an axis
position some maximizer attains, and is least among the axis positions of
all maximizers. -/
theorem retained_head_spec {v : StackVolume} {m : Int} {n : Nat} {f : Idx4 → Nat} {i : Nat}
    (hm : listMax (v.idxList.map v.val) = some m)
    (hfn : ∀ q ∈ v.idxList, f q < n)
    (hh : (v.retained m n f).head? = some i) :
    i < n ∧ (∃ q, Maximizes v q ∧ f q = i) ∧ ∀ q, Maximizes v q → i ≤ f q := by
  unfold StackVolume.retained at hh
  obtain ⟨hp, hlt, hmin⟩ := head_filter_range hh
  rw [List.any_eq_true] at hp
  obtain ⟨q, hq, hq2⟩ := hp
  rw [Bool.and_eq_true, beq_iff_eq, beq_iff_eq] at hq2
  obtain ⟨hfq, hvq⟩ := hq2
  refine ⟨hlt, ⟨q, (maximizes_iff hm).mpr ⟨hq, hvq⟩, hfq⟩, ?_⟩
  intro r hr
  obtain ⟨hrmem, hrval⟩ := (maximizes_iff hm).mp hr
  refine hmin (f r) (hfn r hrmem) ?_
  rw [List.any_eq_true]
  refine ⟨r, hrmem, ?_⟩
  rw [Bool.and_eq_true, beq_iff_eq, beq_iff_eq]
  exact ⟨rfl, hrval⟩

/-- **C1** (amended).  The peak-location step does not select the
lexicographically-first maximizer: independently on each of the four axes
it reports the smallest index attained by *some* global maximizer, so with
tied maxima the reported 4-tuple need not attain the maximum at all.  This
theorem states what the step guarantees: whenever it returns a position,
that position is the componentwise minimum of the maximizer set. -/
theorem C1_peak_componentwise_min (v : StackVolume) (p : Idx4)
    (h : maxCoords v = Except.ok p) : AxisMinOfMaximizers v p := by
  unfold maxCoords at h
  split at h
  · exact Except.noConfusion h
  next m hm =>
    split at h
    next i j t c hi hj ht hc =>
      injection h with h
      subst h
      have hx := retained_head_spec hm (fun q hq => (mem_idxList.mp hq).1) hi
      have hy := retained_head_spec hm (fun q hq => (mem_idxList.mp hq).2.1) hj
      have ht2 := retained_head_spec hm (fun q hq => (mem_idxList.mp hq).2.2.1) ht
      have hc2 := retained_head_spec hm (fun q hq => (mem_idxList.mp hq).2.2.2) hc
      exact ⟨⟨hx.2.1, hx.2.2⟩, ⟨hy.2.1, hy.2.2⟩, ⟨ht2.2.1, ht2.2.2⟩, ⟨hc2.2.1, hc2.2.2⟩⟩
    next hne =>
      exact Except.noConfusion h

/-- A 2-by-2-by-1-by-1 stack volume holding two tied global maxima, at
(x, y) = (0, 1) and (x, y) = (1, 0). -/
def tieVol : StackVolume where
  nx := 2
  ny := 2
  nt := 1
  nc := 1
  data := fun i j _ _ => if i = j then 0 else 1
  xcoord := fun i => i
  ycoord := fun j => j
  tcoord := fun t => t
  ccoord := fun c => c
  utm := none

/-- **C1** counterexample.  On `tieVol` the step returns position
(0, 0, 0, 0), whose stack value 0 is *not* the global maximum 1, and which
is not the lexicographically-first maximizer either ((1, 0, 0, 0) is a
maximizer while (0, 0, 0, 0) is not): the claim as stated fails. -/
theorem C1_counterexample :
    maxCoords tieVol = Except.ok ⟨0, 0, 0, 0⟩ ∧
    listMax (tieVol.idxList.map tieVol.val) = some 1 ∧
    tieVol.val ⟨0, 0, 0, 0⟩ = 0 ∧
    Maximizes tieVol ⟨1, 0, 0, 0⟩ ∧
    ¬ Maximizes tieVol ⟨0, 0, 0, 0⟩ := by
  refine ⟨?_, ?_, ?_, ?_, ?_⟩ <;> decide

/-- **C1** witness: the amended theorem applied at `tieVol`. -/
theorem C1_peak_componentwise_min_witness :
    maxCoords tieVol = Except.ok ⟨0, 0, 0, 0⟩ ∧
    AxisMinOfMaximizers tieVol ⟨0, 0, 0, 0⟩ :=
  ⟨by decide, C1_peak_componentwise_min tieVol ⟨0, 0, 0, 0⟩ (by decide)⟩

/-- **C8**: whenever the peak step returns, it returns a valid position on
each of the four named axes (x, y, time, celerity) of the stack volume, so
a coordinate value can be read on every axis. -/
theorem C8_peak_reads_four_axes (v : StackVolume) (p : Idx4)
    (h : maxCoords v = Except.ok p) :
    p.x < v.nx ∧ p.y < v.ny ∧ p.t < v.nt ∧ p.c < v.nc := by
  unfold maxCoords at h
  split at h
  · exact Except.noConfusion h
  next m hm =>
    split at h
    next i j t c hi hj ht hc =>
      injection h with h
      subst h
      exact ⟨(retained_head_spec hm (fun q hq => (mem_idxList.mp hq).1) hi).1,
             (retained_head_spec hm (fun q hq => (mem_idxList.mp hq).2.1) hj).1,
             (retained_head_spec hm (fun q hq => (mem_idxList.mp hq).2.2.1) ht).1,
             (retained_head_spec hm (fun q hq => (mem_idxList.mp hq).2.2.2) hc).1⟩
    next hne =>
      exact Except.noConfusion h

/-- A 1-by-1-by-1-by-1 stack volume with a given coordinate-system tag. -/
def unitVol (u : Option UTMAttrs) : StackVolume where
  nx := 1
  ny := 1
  nt := 1
  nc := 1
  data := fun _ _ _ _ => 7
  xcoord := fun i => 100 + i
  ycoord := fun j => 200 + j
  tcoord := fun t => 300 + t
  ccoord := fun c => 400 + c
  utm := u

/-- **C8** witness: the theorem applied at a concrete volume. -/
theorem C8_peak_reads_four_axes_witness :
    maxCoords (unitVol none) = Except.ok ⟨0, 0, 0, 0⟩ ∧
    (0 < (unitVol none).nx ∧ 0 < (unitVol none).ny ∧
     0 < (unitVol none).nt ∧ 0 < (unitVol none).nc) :=
  ⟨by decide, C8_peak_reads_four_axes (unitVol none) ⟨0, 0, 0, 0⟩ (by decide)⟩

/-- An empty stack volume: zero size along the x axis. -/
def emptyVol : StackVolume where
  nx := 0
  ny := 3
  nt := 2
  nc := 1
  data := fun _ _ _ _ => 0
  xcoord := fun i => i
  ycoord := fun j => j
  tcoord := fun t => t
  ccoord := fun c => c
  utm := none

/-- **C4** (amended).  On a volume with zero size along any axis the peak
step does fail rather than return an estimate, but with the zero-size
reduction error `S.max()` raises, not with a distinguished
`EmptyVolumeError` (no such error exists in the code). -/
theorem C4_empty_axis_fails (v : StackVolume)
    (h : v.nx = 0 ∨ v.ny = 0 ∨ v.nt = 0 ∨ v.nc = 0) :
    maxCoords v = Except.error PyError.valueError := by
  have hempty : v.idxList = [] := idxList_eq_nil h
  unfold maxCoords
  rw [hempty]
  rfl

/-- **C4** counterexample: at a concrete empty volume the failure is the
zero-size reduction error, which is not `EmptyVolumeError`. -/
theorem C4_counterexample :
    maxCoords emptyVol = Except.error PyError.valueError ∧
    PyError.valueError ≠ PyError.emptyVolumeError := by
  refine ⟨?_, ?_⟩ <;> decide

/-- **C4** witness: the amended theorem applied at `emptyVol`. -/
theorem C4_empty_axis_fails_witness :
    (emptyVol.nx = 0 ∨ emptyVol.ny = 0 ∨ emptyVol.nt = 0 ∨ emptyVol.nc = 0) ∧
    maxCoords emptyVol = Except.error PyError.valueError :=
  ⟨Or.inl rfl, C4_empty_axis_fails emptyVol (Or.inl rfl)⟩

/-- **C2**: de-projection of the winning cell (rtm.py lines 101-107).
When the volume's UTM tag is set, the reported location is `utm.to_latlon`
applied to the winning cell's (x, y) with exactly the recorded zone number
and hemisphere flag (as `northern = not southern_hemisphere`); when the
tag is geographic, the winning cell's own coordinates are reported with no
conversion, as the pair (y, x) = (latitude, longitude).  `toLatlon`
returns (latitude, longitude) by the utm library's contract, so both
branches report (latitude, longitude). -/
theorem C2_deprojection (f : Int → Int → Nat → Bool → Int × Int)
    (v : StackVolume) (p : Idx4) (h : maxCoords v = Except.ok p) :
    (∀ u : UTMAttrs, v.utm = some u →
      sourceEstimate f v =
        Except.ok ⟨f (v.xcoord p.x) (v.ycoord p.y) u.zone (!u.southern_hemisphere),
                   v.tcoord p.t, v.ccoord p.c⟩) ∧
    (v.utm = none →
      sourceEstimate f v =
        Except.ok ⟨(v.ycoord p.y, v.xcoord p.x), v.tcoord p.t, v.ccoord p.c⟩) := by
  constructor
  · intro u hu
    simp only [sourceEstimate, maxLoc, h, hu]
  · intro hu
    simp only [sourceEstimate, maxLoc, h, hu]

/-- A concrete stand-in for `utm.to_latlon`, used only to instantiate
theorems at concrete inputs. -/
def toLatlon0 : Int → Int → Nat → Bool → Int × Int :=
  fun e n z nh => (n + z + (if nh then 1 else 0), e)

/-- **C2** witness: the theorem applied at concrete projected and
geographic volumes. -/
theorem C2_deprojection_witness :
    sourceEstimate toLatlon0 (unitVol (some ⟨5, false⟩)) =
      Except.ok ⟨toLatlon0 100 200 5 true, 300, 400⟩ ∧
    sourceEstimate toLatlon0 (unitVol none) =
      Except.ok ⟨(200, 100), 300, 400⟩ :=
  ⟨(C2_deprojection toLatlon0 (unitVol (some ⟨5, false⟩)) ⟨0, 0, 0, 0⟩
      (by decide)).1 ⟨5, false⟩ rfl,
   (C2_deprojection toLatlon0 (unitVol none) ⟨0, 0, 0, 0⟩ (by decide)).2 rfl⟩

/-- **C3**: the driver builds an AGC parameter set (win_sec=250,
method='gismo') at rtm.py line 50, but the `process_waveforms` call at
lines 52-55 passes `agc_params=None`, so the constructed parameters are
never handed to the call whose output feeds the grid search. -/
theorem C3_agc_params_not_passed :
    agc_params = ⟨250, "gismo"⟩ ∧
    process_waveforms_call.agc_params = none ∧
    process_waveforms_call.agc_params ≠ some agc_params := by
  refine ⟨rfl, rfl, ?_⟩
  decide

/-- **C6**: the celerity list handed to the grid search is the literal
[295, 300, 305]: strictly increasing (hence an ordered set of distinct
speeds) and everywhere positive. -/
theorem C6_celerity_list :
    grid_search_call.celerity_list = [295, 300, 305] ∧
    List.Pairwise (· < ·) grid_search_call.celerity_list ∧
    grid_search_call.celerity_list.all (fun c => decide (0 < c)) = true := by
  refine ⟨rfl, ?_, ?_⟩ <;> decide

/-- **C7**: the stack method handed to the grid search is 'sum', one of
the two allowed values 'sum' and 'product'. -/
theorem C7_stack_method :
    grid_search_call.stack_method = "sum" ∧
    grid_search_call.stack_method ∈ (["sum", "product"] : List String) := by
  refine ⟨?_, ?_⟩ <;> decide

/-- **C5**: the acquisition special-casing is keyed only by the station
name and confined to the AVO branch, whose issued requests are exactly
`avoRequests` (a function of the station name alone): AKS gets the four
channels BDF, BDG, BDH, BDI at a blank location; DLL and OKIF get
locations '01'..'06' at channel HDF; ADKI and SDPI get locations
'01'..'06' at channel BDF; any other station gets one blank-location BDF
request. -/
theorem C5_avo_special_casing (network station : String) (t1 t2 : Int)
    (watcOk : Bool) (resp : Request → List Trace) :
    avoRequests network "AKS" t1 t2 =
      (["BDF", "BDG", "BDH", "BDI"] : List String).map
        (fun ch => ⟨network, "AKS", "", ch, t1, t2⟩) ∧
    (∀ s ∈ (["DLL", "OKIF"] : List String), avoRequests network s t1 t2 =
      (["01", "02", "03", "04", "05", "06"] : List String).map
        (fun loc => ⟨network, s, loc, "HDF", t1, t2⟩)) ∧
    (∀ s ∈ (["ADKI", "SDPI"] : List String), avoRequests network s t1 t2 =
      (["01", "02", "03", "04", "05", "06"] : List String).map
        (fun loc => ⟨network, s, loc, "BDF", t1, t2⟩)) ∧
    (station ∉ (["ADKI", "AKS", "DLL", "OKIF", "SDPI"] : List String) →
      avoRequests network station t1 t2 = [⟨network, station, "", "BDF", t1, t2⟩]) ∧
    (gatherWaveforms "AVO" network station t1 t2 watcOk resp).1 =
      avoRequests network station t1 t2 := by
  refine ⟨rfl, ?_, ?_, ?_, rfl⟩
  · intro s hs
    rcases List.mem_cons.mp hs with h | hs
    · subst h; rfl
    rcases List.mem_cons.mp hs with h | hs
    · subst h; rfl
    · exact absurd hs (List.not_mem_nil s)
  · intro s hs
    rcases List.mem_cons.mp hs with h | hs
    · subst h; rfl
    rcases List.mem_cons.mp hs with h | hs
    · subst h; rfl
    · exact absurd hs (List.not_mem_nil s)
  · intro hnot
    unfold avoRequests
    rw [if_neg hnot]

/-- **C5** witness: the theorem applied at concrete station names. -/
theorem C5_avo_special_casing_witness :
    avoRequests "AV" "HOM" 0 1 = [⟨"AV", "HOM", "", "BDF", 0, 1⟩] ∧
    avoRequests "AV" "DLL" 0 1 =
      (["01", "02", "03", "04", "05", "06"] : List String).map
        (fun loc => ⟨"AV", "DLL", loc, "HDF", 0, 1⟩) :=
  ⟨(C5_avo_special_casing "AV" "HOM" 0 1 true (fun _ => [])).2.2.2.1 (by decide),
   (C5_avo_special_casing "AV" "DLL" 0 1 true (fun _ => [])).2.1 "DLL" (by decide)⟩

/-- **C9**: `gather_waveforms` returns `None` in exactly two cases — a
source other than 'IRIS', 'WATC', 'AVO', or source 'WATC' with the client
construction failing — and in both cases the list of waveform requests
issued before returning is empty. -/
theorem C9_none_exactly_two_cases (source network station : String) (t1 t2 : Int)
    (watcOk : Bool) (resp : Request → List Trace) :
    ((gatherWaveforms source network station t1 t2 watcOk resp).2 = none ↔
      source ∉ (["IRIS", "WATC", "AVO"] : List String) ∨
        (source = "WATC" ∧ watcOk = false)) ∧
    ((gatherWaveforms source network station t1 t2 watcOk resp).2 = none →
      (gatherWaveforms source network station t1 t2 watcOk resp).1 = []) := by
  by_cases h1 : source = "IRIS"
  · subst h1
    simp [gatherWaveforms]
  · by_cases h2 : source = "WATC"
    · subst h2
      cases watcOk <;> simp [gatherWaveforms]
    · by_cases h3 : source = "AVO"
      · subst h3
        simp [gatherWaveforms]
      · simp [gatherWaveforms, h1, h2, h3]

/-- A trivial response function, used only to instantiate theorems. -/
def resp0 : Request → List Trace := fun _ => []

/-- **C9** witness: the theorem applied at a concrete unrecognized source. -/
theorem C9_none_exactly_two_cases_witness :
    (gatherWaveforms "FOO" "AV" "HOM" 0 1 true resp0).2 = none ∧
    (gatherWaveforms "FOO" "AV" "HOM" 0 1 true resp0).1 = [] :=
  ⟨((C9_none_exactly_two_cases "FOO" "AV" "HOM" 0 1 true resp0).1).mpr (by decide),
   (C9_none_exactly_two_cases "FOO" "AV" "HOM" 0 1 true resp0).2
     (((C9_none_exactly_two_cases "FOO" "AV" "HOM" 0 1 true resp0).1).mpr (by decide))⟩

/-- **C10**: whenever `gather_waveforms` returns a Stream — any of the
sources 'IRIS', 'WATC' or 'AVO' succeeding — the returned stream has been
passed through `Stream.sort()` with its default key order just before
returning, so it is sorted in that order. -/
theorem C10_returned_stream_sorted (source network station : String) (t1 t2 : Int)
    (watcOk : Bool) (resp : Request → List Trace) (st : List Trace)
    (h : (gatherWaveforms source network station t1 t2 watcOk resp).2 = some st) :
    List.Sorted traceLE st := by
  unfold gatherWaveforms at h
  split_ifs at h <;>
    simp at h <;>
    (rw [← h]; exact List.sorted_insertionSort traceLE _)

/-- A two-trace response (out of order), used only to instantiate C10. -/
def respTwo : Request → List Trace :=
  fun _ => [⟨"AV", "HOM", "", "BDF", 5, 6⟩, ⟨"AK", "M22K", "", "BDF", 3, 4⟩]

/-- **C10** witness: the theorem applied at a concrete successful IRIS
request whose raw response arrives out of order. -/
theorem C10_returned_stream_sorted_witness :
    List.Sorted traceLE
      (sortStream (([⟨"AV", "HOM", "*", "BDF,HDF", 0, 1⟩] : List Request).flatMap respTwo)) :=
  C10_returned_stream_sorted "IRIS" "AV" "HOM" 0 1 true respTwo _ rfl
